import Mathlib

/-
  Shallow embedding of tomy0000000/quizlet (src/main.py), a terminal
  vocabulary flashcard trainer.

  Modelling conventions:
  * CSV rows are abstracted as `RawVocab` records (the csv layer parses the
    four columns `index, word, meaning, status`; `index` and `status` are the
    integer values obtained by Python's `int(...)` on the corresponding
    fields, `word`/`meaning` are the field strings verbatim).
  * The in-memory item dict is `Vocab` (its `status` holds the `Status` enum).
  * Python's global `random` stream and the interactive answers are modelled
    as oracles: `rand : Nat → Nat` (the t-th draw, reduced mod the bucket
    size at use sites, mirroring `random.randint(0, len-1)`) and
    `ans : Nat → String` (the t-th typed answer / selected choice).
  * `list.sort(key=int(index))` is Python's stable Timsort; any stable sort
    computes the same list, so it is embedded as a stable insertion sort.
  * The unbounded `while` loops of `ask_choice` (pool building and distractor
    sampling) are embedded fuel-indexed, with a distinguished result for
    "fuel exhausted, loop still running" so that divergence is expressible.
  * Terminal output (clear, progress bar, prints) is pure presentation; the
    observable actions of one `main` iteration (rounds run, summary printed,
    file written) are recorded as an `Event` trace in program order.
-/

namespace Quizlet

/-- Status enum of src/main.py: NOT_LEARNED = 0, PASS_CHOICE = 1, LEARNED = 2. -/
inductive Status where
  | NOT_LEARNED : Status
  | PASS_CHOICE : Status
  | LEARNED : Status
deriving DecidableEq, Repr

/-- The integer `.value` of a `Status` member. -/
def Status.code : Status → Int
  | .NOT_LEARNED => 0
  | .PASS_CHOICE => 1
  | .LEARNED => 2

/-- One CSV row of the vocabulary file (fields already split; `index` and
`status` as the integers Python's `int` would produce from the fields). -/
structure RawVocab where
  index : Int
  word : String
  meaning : String
  status : Int
deriving DecidableEq, Repr

/-- One in-memory vocab dict after `read_vocab` replaced the raw status code
by the `Status` enum member. -/
structure Vocab where
  index : Int
  word : String
  meaning : String
  status : Status
deriving DecidableEq, Repr

instance : Inhabited Vocab := ⟨⟨0, "", "", Status.NOT_LEARNED⟩⟩

/-- The `vocabs` dict of src/main.py: one ordered bucket per status. -/
structure Store where
  notLearned : List Vocab
  passChoice : List Vocab
  learned : List Vocab
deriving DecidableEq, Repr

def emptyStore : Store := ⟨[], [], []⟩

/-- Total number of items over the three buckets. -/
def Store.total (s : Store) : Nat :=
  s.notLearned.length + s.passChoice.length + s.learned.length

/-- All items, in the iteration order `for status in Status` (0, 1, 2). -/
def Store.flatten (s : Store) : List Vocab :=
  s.notLearned ++ s.passChoice ++ s.learned

/-- Every item of a bucket carries the status of its bucket (holds after
`read_vocab` and is preserved by the sessions). -/
def Store.wf (s : Store) : Prop :=
  (∀ v ∈ s.notLearned, v.status = Status.NOT_LEARNED) ∧
  (∀ v ∈ s.passChoice, v.status = Status.PASS_CHOICE) ∧
  (∀ v ∈ s.learned, v.status = Status.LEARNED)

instance (s : Store) : Decidable s.wf := by
  unfold Store.wf; infer_instance

/-- `Status(int(field))`: succeeds exactly on the codes 0, 1, 2, raises
`ValueError` otherwise (reported as a malformed row). -/
def parseStatus (n : Int) : Except String Status :=
  if n = 0 then .ok Status.NOT_LEARNED
  else if n = 1 then .ok Status.PASS_CHOICE
  else if n = 2 then .ok Status.LEARNED
  else .error "MalformedRowError: status is not a valid code"

/-- Parse one row: `vocab[status] = Status(int(vocab[status]))`. -/
def parseVocab (r : RawVocab) : Except String Vocab := do
  let st ← parseStatus r.status
  .ok ⟨r.index, r.word, r.meaning, st⟩

/-- The distractor index: meaning-length to the list of meanings of that
length, in file order (a Python dict whose keys are the observed lengths). -/
abbrev DistIndex := List (Nat × List String)

/-- Dict lookup `index[k]`; `none` models a `KeyError`. -/
def idxLookup (idx : DistIndex) (k : Nat) : Option (List String) :=
  (idx.find? (fun p => p.1 == k)).map Prod.snd

/-- Append meaning `m` to the bucket for its length, creating the bucket if
absent (the net effect of `index[len(m)].append(m)` over the load loop;
dict keys are unique, so at most one bucket matches). -/
def addMeaning : DistIndex → String → DistIndex
  | [], m => [(m.length, [m])]
  | p :: ps, m =>
    if p.1 = m.length then (p.1, p.2 ++ [m]) :: ps else p :: addMeaning ps m

def buildIndex (ms : List String) : DistIndex := ms.foldl addMeaning []

/-- `max(list(index.keys()))` (0 on an empty index; Python would raise there,
but the quiz only runs with at least one loaded row). -/
def maxKey (idx : DistIndex) : Nat := (idx.map Prod.fst).foldl Nat.max 0

/-- `vocabs[status].append(vocab)` for the status of `v`. -/
def addVocab (s : Store) (v : Vocab) : Store :=
  match v.status with
  | Status.NOT_LEARNED => { s with notLearned := s.notLearned ++ [v] }
  | Status.PASS_CHOICE => { s with passChoice := s.passChoice ++ [v] }
  | Status.LEARNED => { s with learned := s.learned ++ [v] }

/-- `read_vocab`: parse every row (first invalid status aborts the load),
bucket the items by status in file order, and build the distractor index. -/
def read_vocab (rows : List RawVocab) : Except String (Store × DistIndex) := do
  let vs ← rows.mapM parseVocab
  .ok (vs.foldl addVocab emptyStore, buildIndex (rows.map RawVocab.meaning))

/-- Serialization of one item back to a row: `vocab[status].value`. -/
def Vocab.toRaw (v : Vocab) : RawVocab := ⟨v.index, v.word, v.meaning, v.status.code⟩

/-- The sort key of `raw_data.sort(key=lambda x: int(x[index]))`. -/
def rowLE (a b : RawVocab) : Prop := a.index ≤ b.index

instance : DecidableRel rowLE := fun a b => inferInstanceAs (Decidable (a.index ≤ b.index))

instance : IsTotal RawVocab rowLE := ⟨fun a b => Int.le_total a.index b.index⟩

instance : IsTrans RawVocab rowLE := ⟨fun _ _ _ h1 h2 => Int.le_trans h1 h2⟩

/-- `save_vocabs`: copy every item out of the buckets (bucket order 0,1,2),
turn the enum back into its code, stable-sort by `index`, write the rows.
The returned list is the written file content. -/
def save_vocabs (s : Store) : List RawVocab :=
  List.insertionSort rowLE (s.flatten.map Vocab.toRaw)

/-- Verdict of `ask_prompt`: exact string match of the typed answer. -/
def ask_prompt (vocab : Vocab) (typed : String) : Bool := typed == vocab.meaning

/-- Verdict of `ask_choice` after the user selected a choice string. -/
def choice_verdict (vocab : Vocab) (selected : String) : Bool := selected == vocab.meaning

/-- One trial of `run_prompt_session` at bucket position `i`: on a correct
verdict the item is promoted PASS_CHOICE → LEARNED (append to `learned`,
pop from `passChoice`); otherwise nothing changes. Returns the new store and
the featured item (the same dict object the session appended, so with the
updated status on success). -/
def prompt_trial (s : Store) (i : Nat) (correct : Bool) : Store × Vocab :=
  let v := s.passChoice.getD i default
  if correct then
    let v2 := { v with status := Status.LEARNED }
    ({ s with passChoice := s.passChoice.eraseIdx i,
              learned := s.learned ++ [v2] }, v2)
  else (s, v)

/-- One trial of `run_choice_session` at bucket position `i`: on a correct
verdict the item is promoted NOT_LEARNED → PASS_CHOICE. -/
def choice_trial (s : Store) (i : Nat) (correct : Bool) : Store × Vocab :=
  let v := s.notLearned.getD i default
  if correct then
    let v2 := { v with status := Status.PASS_CHOICE }
    ({ s with notLearned := s.notLearned.eraseIdx i,
              passChoice := s.passChoice ++ [v2] }, v2)
  else (s, v)

/-- The `for i in range(5)` loop of `run_prompt_session` with `k` trials left
and oracle counter `t`: break if the PASS_CHOICE bucket is empty, else pick a
random position, run the trial, record the featured item. -/
def run_prompt_loop (rand : Nat → Nat) (ans : Nat → String) :
    Nat → Nat → Store → Store × List Vocab
  | _, 0, s => (s, [])
  | t, k + 1, s =>
    if s.passChoice.isEmpty then (s, [])
    else
      let i := rand t % s.passChoice.length
      let v := s.passChoice.getD i default
      let step := prompt_trial s i (ask_prompt v (ans t))
      let rest := run_prompt_loop rand ans (t + 1) k step.1
      (rest.1, step.2 :: rest.2)

/-- `run_prompt_session(vocabs, progress)` (progress is presentation only). -/
def run_prompt_session (s : Store) (rand : Nat → Nat) (ans : Nat → String)
    (t : Nat) : Store × List Vocab :=
  run_prompt_loop rand ans t 5 s

/-- The `for i in range(5)` loop of `run_choice_session`. -/
def run_choice_loop (rand : Nat → Nat) (ans : Nat → String) :
    Nat → Nat → Store → Store × List Vocab
  | _, 0, s => (s, [])
  | t, k + 1, s =>
    if s.notLearned.isEmpty then (s, [])
    else
      let i := rand t % s.notLearned.length
      let v := s.notLearned.getD i default
      let step := choice_trial s i (choice_verdict v (ans t))
      let rest := run_choice_loop rand ans (t + 1) k step.1
      (rest.1, step.2 :: rest.2)

/-- `run_choice_session(vocabs, index, progress)`. -/
def run_choice_session (s : Store) (rand : Nat → Nat) (ans : Nat → String)
    (t : Nat) : Store × List Vocab :=
  run_choice_loop rand ans t 5 s

/-- The lines printed by `summary(vocabs)` for the featured items (Python's
negative-width gutter and Nat subtraction both collapse to the empty string). -/
def summaryLines (vs : List Vocab) : List String :=
  vs.map (fun v =>
    v.word ++ String.mk (List.replicate (40 - v.word.length - 2 * v.meaning.length) ' ')
      ++ v.meaning)

/-- Which bucket a round draws from: recall = `run_prompt_session`,
choice = `run_choice_session`. -/
inductive RoundKind where
  | recall : RoundKind
  | choice : RoundKind
deriving DecidableEq, Repr

/-- Observable actions of the main loop, in program order. -/
inductive Event where
  | round : RoundKind → Event
  | summaryEv : List String → Event
  | saveEv : List RawVocab → Event
deriving DecidableEq, Repr

def isSaveEv : Event → Bool
  | .saveEv _ => true
  | _ => false

def isSummaryEv : Event → Bool
  | .summaryEv _ => true
  | _ => false

/-- The round kinds run during one iteration, in order. -/
def roundsOf (es : List Event) : List RoundKind :=
  es.filterMap (fun e => match e with
    | .round k => some k
    | _ => none)

/-- One iteration of the `while True` loop of `main`: `none` when both the
NOT_LEARNED and PASS_CHOICE buckets are empty (the loop breaks), otherwise
the new store, the `in_this_round` list, and the events of the iteration —
the 1–2 rounds, then the summary of the featured items, then the save of the
full store (the source calls `summary(in_this_round)` before
`save_vocabs(...)`). -/
def mainStepFull (s : Store) (rand : Nat → Nat) (ans : Nat → String) :
    Option (Store × List Vocab × List Event) :=
  if s.notLearned.isEmpty then
    if s.passChoice.isEmpty then none
    else
      let r1 := run_prompt_session s rand ans 0
      let r2 := run_prompt_session r1.1 rand ans 5
      some (r2.1, r1.2 ++ r2.2, [Event.round RoundKind.recall, Event.round RoundKind.recall,
        Event.summaryEv (summaryLines (r1.2 ++ r2.2)), Event.saveEv (save_vocabs r2.1)])
  else if 10 ≤ s.passChoice.length then
    let r1 := run_prompt_session s rand ans 0
    let r2 := run_choice_session r1.1 rand ans 5
    some (r2.1, r1.2 ++ r2.2, [Event.round RoundKind.recall, Event.round RoundKind.choice,
      Event.summaryEv (summaryLines (r1.2 ++ r2.2)), Event.saveEv (save_vocabs r2.1)])
  else
    let r1 := run_choice_session s rand ans 0
    if 10 ≤ r1.1.passChoice.length then
      let r2 := run_prompt_session r1.1 rand ans 5
      some (r2.1, r1.2 ++ r2.2, [Event.round RoundKind.choice, Event.round RoundKind.recall,
        Event.summaryEv (summaryLines (r1.2 ++ r2.2)), Event.saveEv (save_vocabs r2.1)])
    else
      let r2 := run_choice_session r1.1 rand ans 5
      some (r2.1, r1.2 ++ r2.2, [Event.round RoundKind.choice, Event.round RoundKind.choice,
        Event.summaryEv (summaryLines (r1.2 ++ r2.2)), Event.saveEv (save_vocabs r2.1)])

/-- The store/events view of one main-loop iteration. -/
def mainStep (s : Store) (rand : Nat → Nat) (ans : Nat → String) :
    Option (Store × List Event) :=
  (mainStepFull s rand ans).map (fun x => (x.1, x.2.2))

/-- Fuel-bounded `while True` loop of `main` (iteration counter `n` offsets
the oracle streams by the at most 10 trials an iteration consumes). -/
def mainLoop (rand : Nat → Nat) (ans : Nat → String) :
    Nat → Store → Nat → List Event × Store
  | 0, s, _ => ([], s)
  | fuel + 1, s, n =>
    match mainStep s (fun k => rand (10 * n + k)) (fun k => ans (10 * n + k)) with
    | none => ([], s)
    | some (s2, es) =>
      let rest := mainLoop rand ans fuel s2 (n + 1)
      (es ++ rest.1, rest.2)

/-- Outcome of a whole program run: the events that happened and either the
final store or the fatal load error. -/
structure RunResult where
  events : List Event
  outcome : Except String Store
deriving Repr

def isErr {ε α : Type} : Except ε α → Bool
  | .error _ => true
  | .ok _ => false

/-- `main`: open and load the file (`none` = the file cannot be opened),
then run the session loop. A load failure exits before any session: no
round event and no save event is emitted. -/
def mainRun (fuel : Nat) (input : Option (List RawVocab)) (rand : Nat → Nat)
    (ans : Nat → String) : RunResult :=
  match input with
  | none => ⟨[], .error "MalformedRowError: file cannot be opened"⟩
  | some rows =>
    match read_vocab rows with
    | .error e => ⟨[], .error e⟩
    | .ok (s, _) =>
      let r := mainLoop rand ans fuel s 0
      ⟨r.1, .ok r.2⟩

/-- Result of the pool-building loop of `ask_choice`: `out` = fuel exhausted
with the loop still running, `keyError k` = `index[k]` raised `KeyError`,
`ok pool steps` = the loop exited with `pool` after `steps` bucket
accumulations. -/
inductive PoolResult where
  | out : PoolResult
  | keyError : Nat → PoolResult
  | ok : List String → Nat → PoolResult
deriving DecidableEq, Repr

/-- `length_index = (length_index + max_length - 2) % max_length + 1`
(Python and Nat truncated subtraction agree on every reachable input). -/
def nextLength (li maxLen : Nat) : Nat := (li + maxLen - 2) % maxLen + 1

/-- The `while len(pool) < 5` loop of `ask_choice`. -/
def buildPoolLoop (idx : DistIndex) (maxLen : Nat) :
    Nat → Nat → List String → Nat → PoolResult
  | 0, _, _, _ => .out
  | fuel + 1, li, pool, steps =>
    if pool.length < 5 then
      match idxLookup idx li with
      | none => .keyError li
      | some bucket => buildPoolLoop idx maxLen fuel (nextLength li maxLen) (pool ++ bucket) (steps + 1)
    else .ok pool steps

/-- Pool construction of `ask_choice` for a given meaning (fuel 5 + maxKey is
enough: every successful step extends the pool by a nonempty bucket). -/
def buildPool (idx : DistIndex) (meaning : String) : PoolResult :=
  buildPoolLoop idx (maxKey idx) (5 + maxKey idx) meaning.length [] 0

/-- `for distractor in random.choices(pool, k=require)`: the drawn strings,
with the t-th draw picking pool position `draw t % len(pool)`. -/
def drawK (pool : List String) (draw : Nat → Nat) (t k : Nat) : List String :=
  (List.range k).map (fun j => pool.getD (draw (t + j) % pool.length) "")

/-- `if distractor not in choices: choices.append(distractor)` folded over
the drawn strings. -/
def addDistractors (choices : List String) (drawn : List String) : List String :=
  drawn.foldl (fun c d => if d ∈ c then c else c ++ [d]) choices

/-- The `while len(choices) < 4` sampling loop of `ask_choice`; `none` means
the fuel ran out with the loop still running (the source loop has no other
exit than reaching 4 choices). -/
def sampleLoop (pool : List String) (draw : Nat → Nat) :
    Nat → List String → Nat → Option (List String)
  | 0, _, _ => none
  | fuel + 1, choices, t =>
    if choices.length < 4 then
      let req := 4 - choices.length
      sampleLoop pool draw fuel (addDistractors choices (drawK pool draw t req)) (t + req)
    else some choices

/-- The length `k` has a bucket in the index and that bucket is non-empty. -/
def keyNonempty (idx : DistIndex) (k : Nat) : Prop :=
  ∃ b, idxLookup idx k = some b ∧ b ≠ []

/-- The dynamic value a Python dict's `status` entry can hold: the `Status`
enum member (as kept in memory) or the plain integer code (as written on a
serialisation copy by `save_vocabs`). -/
inductive StatusField where
  | enum : Status → StatusField
  | code : Int → StatusField
deriving DecidableEq, Repr

/-- One heap cell: a vocab dict as the reference semantics sees it. -/
structure PyVocab where
  index : Int
  word : String
  meaning : String
  status : StatusField
deriving DecidableEq, Repr

instance : Inhabited PyVocab := ⟨⟨0, "", "", StatusField.code 0⟩⟩

/-- Reference-level store: a heap of vocab dicts (cell id = list position,
allocation appends) and three buckets of cell ids. -/
structure Mem where
  heap : List PyVocab
  nl : List Nat
  pc : List Nat
  ln : List Nat
deriving DecidableEq, Repr

/-- `vocab["status"] = vocab["status"].value` applied to one (copied) dict. -/
def PyVocab.toCode (v : PyVocab) : PyVocab :=
  { v with status := match v.status with
    | StatusField.enum s => StatusField.code s.code
    | StatusField.code n => StatusField.code n }

/-- Row written for one serialisation copy. -/
def PyVocab.toRow (v : PyVocab) : RawVocab :=
  ⟨v.index, v.word, v.meaning, match v.status with
    | StatusField.enum s => s.code
    | StatusField.code n => n⟩

/-- `save_vocabs` at the reference level: `raw_data = [vocab.copy() ...]`
allocates fresh cells for the flattened buckets (bucket order 0,1,2), the
status mutation hits only those copies, the copies are stable-sorted by
index and written out; the buckets keep their cell ids. -/
def save_vocabs_mem (m : Mem) : List RawVocab × Mem :=
  let ids := m.nl ++ m.pc ++ m.ln
  let copies := (ids.map (fun i => m.heap.getD i default)).map PyVocab.toCode
  (List.insertionSort rowLE (copies.map PyVocab.toRow), { m with heap := m.heap ++ copies })

/-- Concrete one-cell memory whose PASS_CHOICE bucket holds cell 0. -/
def mem0 : Mem := ⟨[⟨0, "w0", "x", StatusField.enum Status.PASS_CHOICE⟩], [], [0], []⟩

/-- Sample item with status PASS_CHOICE (for concrete instantiations). -/
def v0 : Vocab := ⟨0, "w0", "x", Status.PASS_CHOICE⟩

/-- Sample item with status NOT_LEARNED. -/
def vNL : Vocab := ⟨1, "w1", "mm", Status.NOT_LEARNED⟩

/-- Store with one PASS_CHOICE item. -/
def S1 : Store := ⟨[], [v0], []⟩

/-- Store with one NOT_LEARNED item. -/
def SNL : Store := ⟨[vNL], [], []⟩

/-- A small well-formed vocabulary file (one row per status, out of order). -/
def rows1 : List RawVocab := [⟨2, "w2", "mm", 1⟩, ⟨0, "w0", "x", 0⟩, ⟨1, "w1", "yyy", 2⟩]

/-- The store `read_vocab rows1` produces. -/
def store1 : Store :=
  ⟨[⟨0, "w0", "x", Status.NOT_LEARNED⟩], [⟨2, "w2", "mm", Status.PASS_CHOICE⟩],
    [⟨1, "w1", "yyy", Status.LEARNED⟩]⟩

/-- The distractor index `read_vocab rows1` produces. -/
def index1 : DistIndex := [(2, ["mm"]), (1, ["x"]), (3, ["yyy"])]

/-- Vocabulary whose meaning lengths are 1 and 3 (a gap at 2). -/
def rows6 : List RawVocab := [⟨0, "w1", "a", 0⟩, ⟨1, "w2", "abc", 0⟩]

/-- The store `read_vocab rows6` produces. -/
def store6 : Store :=
  ⟨[⟨0, "w1", "a", Status.NOT_LEARNED⟩, ⟨1, "w2", "abc", Status.NOT_LEARNED⟩], [], []⟩

/-- The distractor index `read_vocab rows6` produces. -/
def index6 : DistIndex := [(1, ["a"]), (3, ["abc"])]

/-- A file with an invalid status code. -/
def rowsBad : List RawVocab := [⟨0, "w0", "x", 3⟩]

/-- A six-row vocabulary whose meaning lengths cover 1 to 4 without gaps. -/
def rowsFull : List RawVocab :=
  [⟨0, "u0", "aa", 0⟩, ⟨1, "u1", "bb", 0⟩, ⟨2, "u2", "c", 0⟩,
    ⟨3, "u3", "ddd", 0⟩, ⟨4, "u4", "ee", 0⟩, ⟨5, "u5", "ffff", 0⟩]

/-- The store `read_vocab rowsFull` produces. -/
def storeFull : Store :=
  ⟨[⟨0, "u0", "aa", Status.NOT_LEARNED⟩, ⟨1, "u1", "bb", Status.NOT_LEARNED⟩,
    ⟨2, "u2", "c", Status.NOT_LEARNED⟩, ⟨3, "u3", "ddd", Status.NOT_LEARNED⟩,
    ⟨4, "u4", "ee", Status.NOT_LEARNED⟩, ⟨5, "u5", "ffff", Status.NOT_LEARNED⟩], [], []⟩

/-- Store with one NOT_LEARNED item and exactly ten PASS_CHOICE items. -/
def S10 : Store := ⟨[vNL], List.replicate 10 v0, []⟩

/-- Formalization of the order claim C9 states: some save event occurs and
the first save event strictly precedes the first summary event. -/
def saveBeforeSummary (es : List Event) : Prop :=
  es.any isSaveEv = true ∧ es.findIdx isSaveEv < es.findIdx isSummaryEv

/-- Selection oracle that always draws position 0. -/
def rand0 : Nat → Nat := fun _ => 0

/-- Answer oracle that never matches a meaning of the sample stores. -/
def ansNo : Nat → String := fun _ => "no"

theorem prompt_trial_fst_notLearned (s : Store) (i : Nat) (c : Bool) :
    (prompt_trial s i c).1.notLearned = s.notLearned := by
  cases c <;> rfl

theorem choice_trial_fst_learned (s : Store) (i : Nat) (c : Bool) :
    (choice_trial s i c).1.learned = s.learned := by
  cases c <;> rfl

theorem prompt_trial_passChoice_subset (s : Store) (i : Nat) (c : Bool) :
    ∀ v ∈ (prompt_trial s i c).1.passChoice, v ∈ s.passChoice := by
  cases c
  · exact fun v hv => hv
  · exact fun v hv => (List.eraseIdx_sublist _ _).subset hv

theorem choice_trial_notLearned_subset (s : Store) (i : Nat) (c : Bool) :
    ∀ v ∈ (choice_trial s i c).1.notLearned, v ∈ s.notLearned := by
  cases c
  · exact fun v hv => hv
  · exact fun v hv => (List.eraseIdx_sublist _ _).subset hv

theorem getD_mem_of_lt {l : List Vocab} {i : Nat} (hi : i < l.length) :
    l.getD i default ∈ l := by
  rw [List.getD_eq_getElem _ _ hi]
  exact List.getElem_mem hi

theorem prompt_trial_learned_shape (s : Store) (i : Nat) (c : Bool) :
    (prompt_trial s i c).1.learned = s.learned ∨
      (prompt_trial s i c).1.learned
        = s.learned ++ [{ s.passChoice.getD i default with status := Status.LEARNED }] := by
  cases c
  · exact Or.inl rfl
  · exact Or.inr rfl

theorem choice_trial_passChoice_shape (s : Store) (i : Nat) (c : Bool) :
    (choice_trial s i c).1.passChoice = s.passChoice ∨
      (choice_trial s i c).1.passChoice
        = s.passChoice ++ [{ s.notLearned.getD i default with status := Status.PASS_CHOICE }] := by
  cases c
  · exact Or.inl rfl
  · exact Or.inr rfl

theorem prompt_trial_featured_src (s : Store) (i : Nat) (c : Bool) (hi : i < s.passChoice.length) :
    ∃ u ∈ s.passChoice,
      (prompt_trial s i c).2 = u ∨ (prompt_trial s i c).2 = { u with status := Status.LEARNED } := by
  cases c
  · exact ⟨s.passChoice.getD i default, getD_mem_of_lt hi, Or.inl rfl⟩
  · exact ⟨s.passChoice.getD i default, getD_mem_of_lt hi, Or.inr rfl⟩

theorem choice_trial_featured_src (s : Store) (i : Nat) (c : Bool) (hi : i < s.notLearned.length) :
    ∃ u ∈ s.notLearned,
      (choice_trial s i c).2 = u ∨ (choice_trial s i c).2 = { u with status := Status.PASS_CHOICE } := by
  cases c
  · exact ⟨s.notLearned.getD i default, getD_mem_of_lt hi, Or.inl rfl⟩
  · exact ⟨s.notLearned.getD i default, getD_mem_of_lt hi, Or.inr rfl⟩

theorem prompt_trial_total (s : Store) (i : Nat) (c : Bool) (hi : i < s.passChoice.length) :
    (prompt_trial s i c).1.total = s.total := by
  cases c
  · rfl
  · simp [prompt_trial, Store.total, List.length_eraseIdx, hi]
    omega

theorem choice_trial_total (s : Store) (i : Nat) (c : Bool) (hi : i < s.notLearned.length) :
    (choice_trial s i c).1.total = s.total := by
  cases c
  · rfl
  · simp [choice_trial, Store.total, List.length_eraseIdx, hi]
    omega

theorem prompt_trial_wf (s : Store) (i : Nat) (c : Bool) (h : s.wf) :
    (prompt_trial s i c).1.wf := by
  cases c
  · exact h
  · obtain ⟨h1, h2, h3⟩ := h
    refine ⟨h1, fun v hv => h2 v ((List.eraseIdx_sublist _ _).subset hv), fun v hv => ?_⟩
    rcases List.mem_append.1 hv with hh | hh
    · exact h3 v hh
    · rcases List.mem_singleton.1 hh with rfl
      rfl

theorem choice_trial_wf (s : Store) (i : Nat) (c : Bool) (h : s.wf) :
    (choice_trial s i c).1.wf := by
  cases c
  · exact h
  · obtain ⟨h1, h2, h3⟩ := h
    refine ⟨fun v hv => h1 v ((List.eraseIdx_sublist _ _).subset hv), fun v hv => ?_, h3⟩
    rcases List.mem_append.1 hv with hh | hh
    · exact h2 v hh
    · rcases List.mem_singleton.1 hh with rfl
      rfl

theorem not_isEmpty_length_pos {l : List Vocab} (h : ¬ l.isEmpty = true) : 0 < l.length := by
  cases l with
  | nil => simp at h
  | cons a l => simp

theorem isEmpty_eq_nil {l : List Vocab} (h : l.isEmpty = true) : l = [] := by
  cases l with
  | nil => rfl
  | cons a l => simp at h

theorem run_prompt_loop_zero (rand : Nat → Nat) (ans : Nat → String) (t : Nat) (s : Store) :
    run_prompt_loop rand ans t 0 s = (s, []) := rfl

theorem run_prompt_loop_succ_empty {s : Store} (h : s.passChoice.isEmpty = true)
    (rand : Nat → Nat) (ans : Nat → String) (t k : Nat) :
    run_prompt_loop rand ans t (k + 1) s = (s, []) := by
  rw [run_prompt_loop, if_pos h]

theorem run_prompt_loop_succ_step {s : Store} (h : ¬ s.passChoice.isEmpty = true)
    (rand : Nat → Nat) (ans : Nat → String) (t k : Nat) :
    run_prompt_loop rand ans t (k + 1) s =
      ((run_prompt_loop rand ans (t + 1) k
          (prompt_trial s (rand t % s.passChoice.length)
            (ask_prompt (s.passChoice.getD (rand t % s.passChoice.length) default) (ans t))).1).1,
        (prompt_trial s (rand t % s.passChoice.length)
            (ask_prompt (s.passChoice.getD (rand t % s.passChoice.length) default) (ans t))).2 ::
          (run_prompt_loop rand ans (t + 1) k
            (prompt_trial s (rand t % s.passChoice.length)
              (ask_prompt (s.passChoice.getD (rand t % s.passChoice.length) default) (ans t))).1).2) := by
  rw [run_prompt_loop, if_neg h]

theorem run_choice_loop_zero (rand : Nat → Nat) (ans : Nat → String) (t : Nat) (s : Store) :
    run_choice_loop rand ans t 0 s = (s, []) := rfl

theorem run_choice_loop_succ_empty {s : Store} (h : s.notLearned.isEmpty = true)
    (rand : Nat → Nat) (ans : Nat → String) (t k : Nat) :
    run_choice_loop rand ans t (k + 1) s = (s, []) := by
  rw [run_choice_loop, if_pos h]

theorem run_choice_loop_succ_step {s : Store} (h : ¬ s.notLearned.isEmpty = true)
    (rand : Nat → Nat) (ans : Nat → String) (t k : Nat) :
    run_choice_loop rand ans t (k + 1) s =
      ((run_choice_loop rand ans (t + 1) k
          (choice_trial s (rand t % s.notLearned.length)
            (choice_verdict (s.notLearned.getD (rand t % s.notLearned.length) default) (ans t))).1).1,
        (choice_trial s (rand t % s.notLearned.length)
            (choice_verdict (s.notLearned.getD (rand t % s.notLearned.length) default) (ans t))).2 ::
          (run_choice_loop rand ans (t + 1) k
            (choice_trial s (rand t % s.notLearned.length)
              (choice_verdict (s.notLearned.getD (rand t % s.notLearned.length) default) (ans t))).1).2) := by
  rw [run_choice_loop, if_neg h]

/-- Combined invariants of the `run_prompt_session` trial loop. -/
theorem prompt_loop_spec (rand : Nat → Nat) (ans : Nat → String) :
    ∀ k t s,
      (run_prompt_loop rand ans t k s).1.notLearned = s.notLearned ∧
      (∀ v ∈ (run_prompt_loop rand ans t k s).1.passChoice, v ∈ s.passChoice) ∧
      (∃ xs, (run_prompt_loop rand ans t k s).1.learned = s.learned ++ xs ∧
        ∀ v ∈ xs, ∃ u ∈ s.passChoice, v = { u with status := Status.LEARNED }) ∧
      (run_prompt_loop rand ans t k s).1.total = s.total ∧
      (s.wf → (run_prompt_loop rand ans t k s).1.wf) ∧
      (run_prompt_loop rand ans t k s).2.length ≤ k ∧
      ((run_prompt_loop rand ans t k s).2.length < k →
        (run_prompt_loop rand ans t k s).1.passChoice = []) ∧
      (∀ v ∈ (run_prompt_loop rand ans t k s).2,
        ∃ u ∈ s.passChoice, v = u ∨ v = { u with status := Status.LEARNED }) := by
  intro k
  induction k with
  | zero =>
    intro t s
    rw [run_prompt_loop_zero]
    exact ⟨rfl, fun v hv => hv, ⟨[], by simp, by simp⟩, rfl, fun h => h, by simp,
      by intro h; simp at h, by intro v hv; simp at hv⟩
  | succ k ih =>
    intro t s
    by_cases hemp : s.passChoice.isEmpty
    · rw [run_prompt_loop_succ_empty hemp]
      exact ⟨rfl, fun v hv => hv, ⟨[], by simp, by simp⟩, rfl, fun h => h, by simp,
        fun _ => isEmpty_eq_nil hemp, by intro v hv; simp at hv⟩
    · rw [run_prompt_loop_succ_step hemp]
      dsimp only
      have hpos : 0 < s.passChoice.length := not_isEmpty_length_pos hemp
      set i := rand t % s.passChoice.length with hidef
      set c := ask_prompt (s.passChoice.getD i default) (ans t) with hcdef
      have hi : i < s.passChoice.length := Nat.mod_lt _ hpos
      obtain ⟨ih1, ih2, ⟨xs, ihx, ihxsrc⟩, ih4, ih5, ih6, ih7, ih8⟩ :=
        ih (t + 1) (prompt_trial s i c).1
      refine ⟨?_, ?_, ?_, ?_, ?_, ?_, ?_, ?_⟩
      · exact ih1.trans (prompt_trial_fst_notLearned s i c)
      · intro v hv
        exact prompt_trial_passChoice_subset s i c v (ih2 v hv)
      · rcases prompt_trial_learned_shape s i c with hsh | hsh
        · refine ⟨xs, ?_, fun v hv => ?_⟩
          · rw [ihx, hsh]
          · obtain ⟨u, hu, hv2⟩ := ihxsrc v hv
            exact ⟨u, prompt_trial_passChoice_subset s i c u hu, hv2⟩
        · refine ⟨{ s.passChoice.getD i default with status := Status.LEARNED } :: xs, ?_, ?_⟩
          · rw [ihx, hsh]
            simp
          · intro v hv
            rcases List.mem_cons.1 hv with rfl | hv2
            · exact ⟨s.passChoice.getD i default, getD_mem_of_lt hi, rfl⟩
            · obtain ⟨u, hu, hveq⟩ := ihxsrc v hv2
              exact ⟨u, prompt_trial_passChoice_subset s i c u hu, hveq⟩
      · exact ih4.trans (prompt_trial_total s i c hi)
      · intro hwf
        exact ih5 (prompt_trial_wf s i c hwf)
      · simpa using Nat.succ_le_succ ih6
      · intro hlen
        simp only [List.length_cons] at hlen
        exact ih7 (Nat.lt_of_succ_lt_succ hlen)
      · intro v hv
        rcases List.mem_cons.1 hv with rfl | hv2
        · exact prompt_trial_featured_src s i c hi
        · obtain ⟨u, hu, hveq⟩ := ih8 v hv2
          exact ⟨u, prompt_trial_passChoice_subset s i c u hu, hveq⟩

/-- Combined invariants of the `run_choice_session` trial loop. -/
theorem choice_loop_spec (rand : Nat → Nat) (ans : Nat → String) :
    ∀ k t s,
      (run_choice_loop rand ans t k s).1.learned = s.learned ∧
      (∀ v ∈ (run_choice_loop rand ans t k s).1.notLearned, v ∈ s.notLearned) ∧
      (∃ xs, (run_choice_loop rand ans t k s).1.passChoice = s.passChoice ++ xs ∧
        ∀ v ∈ xs, ∃ u ∈ s.notLearned, v = { u with status := Status.PASS_CHOICE }) ∧
      (run_choice_loop rand ans t k s).1.total = s.total ∧
      (s.wf → (run_choice_loop rand ans t k s).1.wf) ∧
      (run_choice_loop rand ans t k s).2.length ≤ k ∧
      ((run_choice_loop rand ans t k s).2.length < k →
        (run_choice_loop rand ans t k s).1.notLearned = []) ∧
      (∀ v ∈ (run_choice_loop rand ans t k s).2,
        ∃ u ∈ s.notLearned, v = u ∨ v = { u with status := Status.PASS_CHOICE }) := by
  intro k
  induction k with
  | zero =>
    intro t s
    rw [run_choice_loop_zero]
    exact ⟨rfl, fun v hv => hv, ⟨[], by simp, by simp⟩, rfl, fun h => h, by simp,
      by intro h; simp at h, by intro v hv; simp at hv⟩
  | succ k ih =>
    intro t s
    by_cases hemp : s.notLearned.isEmpty
    · rw [run_choice_loop_succ_empty hemp]
      exact ⟨rfl, fun v hv => hv, ⟨[], by simp, by simp⟩, rfl, fun h => h, by simp,
        fun _ => isEmpty_eq_nil hemp, by intro v hv; simp at hv⟩
    · rw [run_choice_loop_succ_step hemp]
      dsimp only
      have hpos : 0 < s.notLearned.length := not_isEmpty_length_pos hemp
      set i := rand t % s.notLearned.length with hidef
      set c := choice_verdict (s.notLearned.getD i default) (ans t) with hcdef
      have hi : i < s.notLearned.length := Nat.mod_lt _ hpos
      obtain ⟨ih1, ih2, ⟨xs, ihx, ihxsrc⟩, ih4, ih5, ih6, ih7, ih8⟩ :=
        ih (t + 1) (choice_trial s i c).1
      refine ⟨?_, ?_, ?_, ?_, ?_, ?_, ?_, ?_⟩
      · exact ih1.trans (choice_trial_fst_learned s i c)
      · intro v hv
        exact choice_trial_notLearned_subset s i c v (ih2 v hv)
      · rcases choice_trial_passChoice_shape s i c with hsh | hsh
        · refine ⟨xs, ?_, fun v hv => ?_⟩
          · rw [ihx, hsh]
          · obtain ⟨u, hu, hv2⟩ := ihxsrc v hv
            exact ⟨u, choice_trial_notLearned_subset s i c u hu, hv2⟩
        · refine ⟨{ s.notLearned.getD i default with status := Status.PASS_CHOICE } :: xs, ?_, ?_⟩
          · rw [ihx, hsh]
            simp
          · intro v hv
            rcases List.mem_cons.1 hv with rfl | hv2
            · exact ⟨s.notLearned.getD i default, getD_mem_of_lt hi, rfl⟩
            · obtain ⟨u, hu, hveq⟩ := ihxsrc v hv2
              exact ⟨u, choice_trial_notLearned_subset s i c u hu, hveq⟩
      · exact ih4.trans (choice_trial_total s i c hi)
      · intro hwf
        exact ih5 (choice_trial_wf s i c hwf)
      · simpa using Nat.succ_le_succ ih6
      · intro hlen
        simp only [List.length_cons] at hlen
        exact ih7 (Nat.lt_of_succ_lt_succ hlen)
      · intro v hv
        rcases List.mem_cons.1 hv with rfl | hv2
        · exact choice_trial_featured_src s i c hi
        · obtain ⟨u, hu, hveq⟩ := ih8 v hv2
          exact ⟨u, choice_trial_notLearned_subset s i c u hu, hveq⟩

theorem parseVocab_ok_iff (r : RawVocab) (v : Vocab) :
    parseVocab r = Except.ok v ↔
      ((r.status = 0 ∧ v = ⟨r.index, r.word, r.meaning, Status.NOT_LEARNED⟩) ∨
       (r.status = 1 ∧ v = ⟨r.index, r.word, r.meaning, Status.PASS_CHOICE⟩) ∨
       (r.status = 2 ∧ v = ⟨r.index, r.word, r.meaning, Status.LEARNED⟩)) := by
  unfold parseVocab parseStatus
  by_cases h0 : r.status = 0
  · simp [h0, Bind.bind, Except.bind, eq_comm]
  · by_cases h1 : r.status = 1
    · simp [h0, h1, Bind.bind, Except.bind, eq_comm]
    · by_cases h2 : r.status = 2
      · simp [h0, h1, h2, Bind.bind, Except.bind, eq_comm]
      · simp [h0, h1, h2, Bind.bind, Except.bind]

theorem parseVocab_ok_toRaw {r : RawVocab} {v : Vocab} (h : parseVocab r = Except.ok v) :
    v.toRaw = r := by
  obtain ⟨ri, rwd, rm, rs⟩ := r
  rcases (parseVocab_ok_iff _ v).1 h with ⟨hs, rfl⟩ | ⟨hs, rfl⟩ | ⟨hs, rfl⟩ <;>
    simp_all [Vocab.toRaw, Status.code]

theorem parseVocab_err_iff (r : RawVocab) :
    isErr (parseVocab r) = true ↔ ¬ (r.status = 0 ∨ r.status = 1 ∨ r.status = 2) := by
  unfold parseVocab parseStatus
  by_cases h0 : r.status = 0
  · simp [h0, Bind.bind, Except.bind, isErr]
  · by_cases h1 : r.status = 1
    · simp [h0, h1, Bind.bind, Except.bind, isErr]
    · by_cases h2 : r.status = 2
      · simp [h0, h1, h2, Bind.bind, Except.bind, isErr]
      · simp [h0, h1, h2, Bind.bind, Except.bind, isErr]

theorem mapM_parseVocab_ok {rows : List RawVocab} {vs : List Vocab}
    (h : rows.mapM parseVocab = Except.ok vs) :
    vs.map Vocab.toRaw = rows ∧ vs.length = rows.length := by
  induction rows generalizing vs with
  | nil =>
    simp only [List.mapM_nil] at h
    cases h
    simp
  | cons r rs ih =>
    rw [List.mapM_cons] at h
    cases hp : parseVocab r with
    | error e =>
      rw [hp] at h
      simp [Bind.bind, Except.bind] at h
    | ok v =>
      rw [hp] at h
      cases hm : rs.mapM parseVocab with
      | error e =>
        rw [hm] at h
        simp [Bind.bind, Except.bind, Pure.pure] at h
      | ok ws =>
        rw [hm] at h
        simp only [Bind.bind, Except.bind, Pure.pure, Except.pure, Except.ok.injEq] at h
        subst h
        obtain ⟨ih1, ih2⟩ := ih hm
        simp [parseVocab_ok_toRaw hp, ih1, ih2]

theorem mapM_parseVocab_err_iff (rows : List RawVocab) :
    isErr (rows.mapM parseVocab) = true ↔
      ∃ r ∈ rows, ¬ (r.status = 0 ∨ r.status = 1 ∨ r.status = 2) := by
  induction rows with
  | nil =>
    rw [List.mapM_nil]
    simp [isErr, Pure.pure, Except.pure]
  | cons r rs ih =>
    rw [List.mapM_cons]
    cases hp : parseVocab r with
    | error e =>
      have hr : ¬ (r.status = 0 ∨ r.status = 1 ∨ r.status = 2) := by
        rw [← parseVocab_err_iff, hp]
        rfl
      simp only [Bind.bind, Except.bind, isErr]
      constructor
      · intro _
        exact ⟨r, List.mem_cons_self r rs, hr⟩
      · intro _
        trivial
    | ok v =>
      have hr : (r.status = 0 ∨ r.status = 1 ∨ r.status = 2) := by
        by_contra hc
        rw [← parseVocab_err_iff] at hc
        rw [hp] at hc
        simp [isErr] at hc
      cases hm : rs.mapM parseVocab with
      | error e =>
        have hex : ∃ x ∈ rs, ¬ (x.status = 0 ∨ x.status = 1 ∨ x.status = 2) :=
          ih.1 (by rw [hm]; rfl)
        obtain ⟨x, hx, hxs⟩ := hex
        simp only [Bind.bind, Except.bind, isErr]
        constructor
        · intro _
          exact ⟨x, List.mem_cons_of_mem r hx, hxs⟩
        · intro _
          trivial
      | ok ws =>
        have hnone : ¬ ∃ x ∈ rs, ¬ (x.status = 0 ∨ x.status = 1 ∨ x.status = 2) := by
          intro hc
          have := ih.2 hc
          rw [hm] at this
          simp [isErr] at this
        simp only [Bind.bind, Except.bind, isErr, Pure.pure, Except.pure]
        constructor
        · intro hfalse
          simp at hfalse
        · rintro ⟨x, hx, hxs⟩
          rcases List.mem_cons.1 hx with rfl | hx2
          · exact absurd hr hxs
          · exact absurd ⟨x, hx2, hxs⟩ hnone

theorem addVocab_total (s : Store) (v : Vocab) : (addVocab s v).total = s.total + 1 := by
  cases hs : v.status <;> simp [addVocab, hs, Store.total] <;> omega

theorem foldl_addVocab_total (vs : List Vocab) :
    ∀ s : Store, (vs.foldl addVocab s).total = s.total + vs.length := by
  induction vs with
  | nil => intro s; simp
  | cons v vs ih =>
    intro s
    simp only [List.foldl_cons, List.length_cons]
    rw [ih, addVocab_total]
    omega

theorem addVocab_wf {s : Store} (h : s.wf) (v : Vocab) : (addVocab s v).wf := by
  obtain ⟨h1, h2, h3⟩ := h
  cases hs : v.status with
  | NOT_LEARNED =>
    simp only [addVocab, hs]
    refine ⟨?_, h2, h3⟩
    intro x hx
    rcases List.mem_append.1 hx with hh | hh
    · exact h1 x hh
    · rcases List.mem_singleton.1 hh with rfl
      exact hs
  | PASS_CHOICE =>
    simp only [addVocab, hs]
    refine ⟨h1, ?_, h3⟩
    intro x hx
    rcases List.mem_append.1 hx with hh | hh
    · exact h2 x hh
    · rcases List.mem_singleton.1 hh with rfl
      exact hs
  | LEARNED =>
    simp only [addVocab, hs]
    refine ⟨h1, h2, ?_⟩
    intro x hx
    rcases List.mem_append.1 hx with hh | hh
    · exact h3 x hh
    · rcases List.mem_singleton.1 hh with rfl
      exact hs

theorem foldl_addVocab_wf (vs : List Vocab) :
    ∀ s : Store, s.wf → (vs.foldl addVocab s).wf := by
  induction vs with
  | nil => intro s h; exact h
  | cons v vs ih =>
    intro s h
    simp only [List.foldl_cons]
    exact ih _ (addVocab_wf h v)

theorem flatten_addVocab (s : Store) (v : Vocab) :
    (addVocab s v).flatten.Perm (s.flatten ++ [v]) := by
  cases hs : v.status with
  | NOT_LEARNED =>
    simp only [addVocab, hs, Store.flatten]
    have h : ([v] ++ (s.passChoice ++ s.learned)).Perm ((s.passChoice ++ s.learned) ++ [v]) :=
      List.perm_append_comm
    have h2 := h.append_left s.notLearned
    simpa [List.append_assoc] using h2
  | PASS_CHOICE =>
    simp only [addVocab, hs, Store.flatten]
    have h : ([v] ++ s.learned).Perm (s.learned ++ [v]) := List.perm_append_comm
    have h2 := (h.append_left s.passChoice).append_left s.notLearned
    simpa [List.append_assoc] using h2
  | LEARNED =>
    simp only [addVocab, hs, Store.flatten]
    simp [List.append_assoc]

theorem flatten_foldl_addVocab (vs : List Vocab) :
    ∀ s : Store, ((vs.foldl addVocab s).flatten).Perm (s.flatten ++ vs) := by
  induction vs with
  | nil => intro s; simp
  | cons v vs ih =>
    intro s
    simp only [List.foldl_cons]
    have h1 := ih (addVocab s v)
    have h2 := (flatten_addVocab s v).append_right vs
    have h3 := h1.trans h2
    simpa [List.append_assoc] using h3

theorem read_vocab_ok_elim {rows : List RawVocab} {s : Store} {idx : DistIndex}
    (h : read_vocab rows = Except.ok (s, idx)) :
    ∃ vs, rows.mapM parseVocab = Except.ok vs ∧ s = vs.foldl addVocab emptyStore ∧
      idx = buildIndex (rows.map RawVocab.meaning) := by
  unfold read_vocab at h
  cases hm : rows.mapM parseVocab with
  | error e =>
    rw [hm] at h
    simp [Bind.bind, Except.bind] at h
  | ok vs =>
    rw [hm] at h
    simp only [Bind.bind, Except.bind, Except.ok.injEq, Prod.mk.injEq] at h
    exact ⟨vs, rfl, h.1.symm, h.2.symm⟩

theorem read_vocab_total {rows : List RawVocab} {s : Store} {idx : DistIndex}
    (h : read_vocab rows = Except.ok (s, idx)) : s.total = rows.length := by
  obtain ⟨vs, hm, rfl, _⟩ := read_vocab_ok_elim h
  rw [foldl_addVocab_total]
  have := (mapM_parseVocab_ok hm).2
  simp [emptyStore, Store.total, this]

theorem read_vocab_wf {rows : List RawVocab} {s : Store} {idx : DistIndex}
    (h : read_vocab rows = Except.ok (s, idx)) : s.wf := by
  obtain ⟨vs, hm, rfl, _⟩ := read_vocab_ok_elim h
  refine foldl_addVocab_wf vs emptyStore ?_
  exact ⟨by intro v hv; simp [emptyStore] at hv, by intro v hv; simp [emptyStore] at hv,
    by intro v hv; simp [emptyStore] at hv⟩

theorem run_prompt_session_total (s : Store) (rand : Nat → Nat) (ans : Nat → String) (t : Nat) :
    (run_prompt_session s rand ans t).1.total = s.total :=
  (prompt_loop_spec rand ans 5 t s).2.2.2.1

theorem run_choice_session_total (s : Store) (rand : Nat → Nat) (ans : Nat → String) (t : Nat) :
    (run_choice_session s rand ans t).1.total = s.total :=
  (choice_loop_spec rand ans 5 t s).2.2.2.1

theorem run_prompt_session_learned_mono (s : Store) (rand : Nat → Nat) (ans : Nat → String)
    (t : Nat) : ∀ v ∈ s.learned, v ∈ (run_prompt_session s rand ans t).1.learned := by
  obtain ⟨xs, hx, _⟩ := (prompt_loop_spec rand ans 5 t s).2.2.1
  intro v hv
  show v ∈ (run_prompt_loop rand ans t 5 s).1.learned
  rw [hx]
  exact List.mem_append.2 (Or.inl hv)

theorem run_choice_session_passChoice_mono (s : Store) (rand : Nat → Nat) (ans : Nat → String)
    (t : Nat) : ∀ v ∈ s.passChoice, v ∈ (run_choice_session s rand ans t).1.passChoice := by
  obtain ⟨xs, hx, _⟩ := (choice_loop_spec rand ans 5 t s).2.2.1
  intro v hv
  show v ∈ (run_choice_loop rand ans t 5 s).1.passChoice
  rw [hx]
  exact List.mem_append.2 (Or.inl hv)

theorem mainStepFull_done {s : Store} (h1 : s.notLearned.isEmpty = true)
    (h2 : s.passChoice.isEmpty = true) (rand : Nat → Nat) (ans : Nat → String) :
    mainStepFull s rand ans = none := by
  rw [mainStepFull, if_pos h1, if_pos h2]

theorem mainStepFull_rr {s : Store} (h1 : s.notLearned.isEmpty = true)
    (h2 : ¬ s.passChoice.isEmpty = true) (rand : Nat → Nat) (ans : Nat → String) :
    mainStepFull s rand ans =
      some ((run_prompt_session (run_prompt_session s rand ans 0).1 rand ans 5).1,
        (run_prompt_session s rand ans 0).2 ++
          (run_prompt_session (run_prompt_session s rand ans 0).1 rand ans 5).2,
        [Event.round RoundKind.recall, Event.round RoundKind.recall,
          Event.summaryEv (summaryLines ((run_prompt_session s rand ans 0).2 ++
            (run_prompt_session (run_prompt_session s rand ans 0).1 rand ans 5).2)),
          Event.saveEv (save_vocabs
            (run_prompt_session (run_prompt_session s rand ans 0).1 rand ans 5).1)]) := by
  rw [mainStepFull, if_pos h1, if_neg h2]

theorem mainStepFull_rc {s : Store} (h1 : ¬ s.notLearned.isEmpty = true)
    (h3 : 10 ≤ s.passChoice.length) (rand : Nat → Nat) (ans : Nat → String) :
    mainStepFull s rand ans =
      some ((run_choice_session (run_prompt_session s rand ans 0).1 rand ans 5).1,
        (run_prompt_session s rand ans 0).2 ++
          (run_choice_session (run_prompt_session s rand ans 0).1 rand ans 5).2,
        [Event.round RoundKind.recall, Event.round RoundKind.choice,
          Event.summaryEv (summaryLines ((run_prompt_session s rand ans 0).2 ++
            (run_choice_session (run_prompt_session s rand ans 0).1 rand ans 5).2)),
          Event.saveEv (save_vocabs
            (run_choice_session (run_prompt_session s rand ans 0).1 rand ans 5).1)]) := by
  rw [mainStepFull, if_neg h1, if_pos h3]

theorem mainStepFull_cr {s : Store} {rand : Nat → Nat} {ans : Nat → String}
    (h1 : ¬ s.notLearned.isEmpty = true) (h3 : ¬ 10 ≤ s.passChoice.length)
    (h4 : 10 ≤ (run_choice_session s rand ans 0).1.passChoice.length) :
    mainStepFull s rand ans =
      some ((run_prompt_session (run_choice_session s rand ans 0).1 rand ans 5).1,
        (run_choice_session s rand ans 0).2 ++
          (run_prompt_session (run_choice_session s rand ans 0).1 rand ans 5).2,
        [Event.round RoundKind.choice, Event.round RoundKind.recall,
          Event.summaryEv (summaryLines ((run_choice_session s rand ans 0).2 ++
            (run_prompt_session (run_choice_session s rand ans 0).1 rand ans 5).2)),
          Event.saveEv (save_vocabs
            (run_prompt_session (run_choice_session s rand ans 0).1 rand ans 5).1)]) := by
  rw [mainStepFull, if_neg h1, if_neg h3]
  dsimp only
  rw [if_pos h4]

theorem mainStepFull_cc {s : Store} {rand : Nat → Nat} {ans : Nat → String}
    (h1 : ¬ s.notLearned.isEmpty = true) (h3 : ¬ 10 ≤ s.passChoice.length)
    (h4 : ¬ 10 ≤ (run_choice_session s rand ans 0).1.passChoice.length) :
    mainStepFull s rand ans =
      some ((run_choice_session (run_choice_session s rand ans 0).1 rand ans 5).1,
        (run_choice_session s rand ans 0).2 ++
          (run_choice_session (run_choice_session s rand ans 0).1 rand ans 5).2,
        [Event.round RoundKind.choice, Event.round RoundKind.choice,
          Event.summaryEv (summaryLines ((run_choice_session s rand ans 0).2 ++
            (run_choice_session (run_choice_session s rand ans 0).1 rand ans 5).2)),
          Event.saveEv (save_vocabs
            (run_choice_session (run_choice_session s rand ans 0).1 rand ans 5).1)]) := by
  rw [mainStepFull, if_neg h1, if_neg h3]
  dsimp only
  rw [if_neg h4]

theorem mainStep_some_elim {s : Store} {rand : Nat → Nat} {ans : Nat → String}
    {s2 : Store} {es : List Event} (h : mainStep s rand ans = some (s2, es)) :
    ∃ f, mainStepFull s rand ans = some (s2, f, es) := by
  unfold mainStep at h
  cases hm : mainStepFull s rand ans with
  | none =>
    rw [hm] at h
    simp at h
  | some x =>
    obtain ⟨xs, xf, xe⟩ := x
    rw [hm] at h
    simp only [Option.map, Option.some.injEq] at h
    cases h
    exact ⟨xf, rfl⟩

theorem run_prompt_session_notLearned (s : Store) (rand : Nat → Nat) (ans : Nat → String)
    (t : Nat) : (run_prompt_session s rand ans t).1.notLearned = s.notLearned :=
  (prompt_loop_spec rand ans 5 t s).1

theorem run_choice_session_learned (s : Store) (rand : Nat → Nat) (ans : Nat → String)
    (t : Nat) : (run_choice_session s rand ans t).1.learned = s.learned :=
  (choice_loop_spec rand ans 5 t s).1

theorem run_prompt_session_passChoice_subset (s : Store) (rand : Nat → Nat) (ans : Nat → String)
    (t : Nat) : ∀ v ∈ (run_prompt_session s rand ans t).1.passChoice, v ∈ s.passChoice :=
  (prompt_loop_spec rand ans 5 t s).2.1

theorem run_choice_session_notLearned_subset (s : Store) (rand : Nat → Nat) (ans : Nat → String)
    (t : Nat) : ∀ v ∈ (run_choice_session s rand ans t).1.notLearned, v ∈ s.notLearned :=
  (choice_loop_spec rand ans 5 t s).2.1

theorem mainStepFull_total {s : Store} {rand : Nat → Nat} {ans : Nat → String}
    {s2 : Store} {f : List Vocab} {es : List Event}
    (h : mainStepFull s rand ans = some (s2, f, es)) : s2.total = s.total := by
  by_cases h1 : s.notLearned.isEmpty
  · by_cases h2 : s.passChoice.isEmpty
    · rw [mainStepFull_done h1 h2] at h
      cases h
    · rw [mainStepFull_rr h1 h2] at h
      simp only [Option.some.injEq, Prod.mk.injEq] at h
      obtain ⟨rfl, -, -⟩ := h
      rw [run_prompt_session_total, run_prompt_session_total]
  · by_cases h3 : 10 ≤ s.passChoice.length
    · rw [mainStepFull_rc h1 h3] at h
      simp only [Option.some.injEq, Prod.mk.injEq] at h
      obtain ⟨rfl, -, -⟩ := h
      rw [run_choice_session_total, run_prompt_session_total]
    · by_cases h4 : 10 ≤ (run_choice_session s rand ans 0).1.passChoice.length
      · rw [mainStepFull_cr h1 h3 h4] at h
        simp only [Option.some.injEq, Prod.mk.injEq] at h
        obtain ⟨rfl, -, -⟩ := h
        rw [run_prompt_session_total, run_choice_session_total]
      · rw [mainStepFull_cc h1 h3 h4] at h
        simp only [Option.some.injEq, Prod.mk.injEq] at h
        obtain ⟨rfl, -, -⟩ := h
        rw [run_choice_session_total, run_choice_session_total]

theorem mainStepFull_mono {s : Store} {rand : Nat → Nat} {ans : Nat → String}
    {s2 : Store} {f : List Vocab} {es : List Event}
    (h : mainStepFull s rand ans = some (s2, f, es)) :
    (∀ v ∈ s2.notLearned, v ∈ s.notLearned) ∧ (∀ v ∈ s.learned, v ∈ s2.learned) := by
  by_cases h1 : s.notLearned.isEmpty
  · by_cases h2 : s.passChoice.isEmpty
    · rw [mainStepFull_done h1 h2] at h
      cases h
    · rw [mainStepFull_rr h1 h2] at h
      simp only [Option.some.injEq, Prod.mk.injEq] at h
      obtain ⟨rfl, -, -⟩ := h
      constructor
      · intro v hv
        rw [run_prompt_session_notLearned, run_prompt_session_notLearned] at hv
        exact hv
      · intro v hv
        exact run_prompt_session_learned_mono _ rand ans 5 v
          (run_prompt_session_learned_mono s rand ans 0 v hv)
  · by_cases h3 : 10 ≤ s.passChoice.length
    · rw [mainStepFull_rc h1 h3] at h
      simp only [Option.some.injEq, Prod.mk.injEq] at h
      obtain ⟨rfl, -, -⟩ := h
      constructor
      · intro v hv
        have hv2 := run_choice_session_notLearned_subset _ rand ans 5 v hv
        rw [run_prompt_session_notLearned] at hv2
        exact hv2
      · intro v hv
        rw [run_choice_session_learned]
        exact run_prompt_session_learned_mono s rand ans 0 v hv
    · by_cases h4 : 10 ≤ (run_choice_session s rand ans 0).1.passChoice.length
      · rw [mainStepFull_cr h1 h3 h4] at h
        simp only [Option.some.injEq, Prod.mk.injEq] at h
        obtain ⟨rfl, -, -⟩ := h
        constructor
        · intro v hv
          rw [run_prompt_session_notLearned] at hv
          exact run_choice_session_notLearned_subset s rand ans 0 v hv
        · intro v hv
          refine run_prompt_session_learned_mono _ rand ans 5 v ?_
          rw [run_choice_session_learned]
          exact hv
      · rw [mainStepFull_cc h1 h3 h4] at h
        simp only [Option.some.injEq, Prod.mk.injEq] at h
        obtain ⟨rfl, -, -⟩ := h
        constructor
        · intro v hv
          exact run_choice_session_notLearned_subset s rand ans 0 v
            (run_choice_session_notLearned_subset _ rand ans 5 v hv)
        · intro v hv
          rw [run_choice_session_learned, run_choice_session_learned]
          exact hv

theorem mainLoop_total (rand : Nat → Nat) (ans : Nat → String) :
    ∀ fuel s n, ((mainLoop rand ans fuel s n).2).total = s.total := by
  intro fuel
  induction fuel with
  | zero => intro s n; rfl
  | succ fuel ih =>
    intro s n
    rw [mainLoop]
    cases hm : mainStep s (fun k => rand (10 * n + k)) (fun k => ans (10 * n + k)) with
    | none => rfl
    | some x =>
      obtain ⟨s2, es⟩ := x
      dsimp only
      obtain ⟨f, hfull⟩ := mainStep_some_elim hm
      exact (ih s2 (n + 1)).trans (mainStepFull_total hfull)

/-- C1: for every vocabulary item and quiz trial, a correct verdict moves the
item exactly one status forward (PASS_CHOICE → LEARNED in a recall trial,
NOT_LEARNED → PASS_CHOICE in a choice trial) and an incorrect verdict leaves
the store unchanged; moreover no session loop and no main iteration ever
moves an item backward or from NOT_LEARNED directly to LEARNED: recall
rounds leave NOT_LEARNED untouched and add to LEARNED only items promoted
out of PASS_CHOICE, choice rounds leave LEARNED untouched and add to
PASS_CHOICE only items promoted out of NOT_LEARNED, and a main iteration
never grows NOT_LEARNED and never loses a LEARNED item. -/
theorem C1_status_forward_only :
    (∀ s i, (prompt_trial s i false).1 = s) ∧
    (∀ s i, (choice_trial s i false).1 = s) ∧
    (∀ s i, i < s.passChoice.length → s.wf →
      (s.passChoice.getD i default).status = Status.PASS_CHOICE ∧
      (prompt_trial s i true).1.notLearned = s.notLearned ∧
      (prompt_trial s i true).1.passChoice = s.passChoice.eraseIdx i ∧
      (prompt_trial s i true).1.learned =
        s.learned ++ [{ s.passChoice.getD i default with status := Status.LEARNED }]) ∧
    (∀ s i, i < s.notLearned.length → s.wf →
      (s.notLearned.getD i default).status = Status.NOT_LEARNED ∧
      (choice_trial s i true).1.learned = s.learned ∧
      (choice_trial s i true).1.notLearned = s.notLearned.eraseIdx i ∧
      (choice_trial s i true).1.passChoice =
        s.passChoice ++ [{ s.notLearned.getD i default with status := Status.PASS_CHOICE }]) ∧
    (∀ rand ans t k s,
      (run_prompt_loop rand ans t k s).1.notLearned = s.notLearned ∧
      (∀ v ∈ (run_prompt_loop rand ans t k s).1.passChoice, v ∈ s.passChoice) ∧
      (∀ v ∈ (run_prompt_loop rand ans t k s).1.learned,
        v ∈ s.learned ∨ ∃ u ∈ s.passChoice, v = { u with status := Status.LEARNED })) ∧
    (∀ rand ans t k s,
      (run_choice_loop rand ans t k s).1.learned = s.learned ∧
      (∀ v ∈ (run_choice_loop rand ans t k s).1.notLearned, v ∈ s.notLearned) ∧
      (∀ v ∈ (run_choice_loop rand ans t k s).1.passChoice,
        v ∈ s.passChoice ∨ ∃ u ∈ s.notLearned, v = { u with status := Status.PASS_CHOICE })) ∧
    (∀ rand ans s s2 es, mainStep s rand ans = some (s2, es) →
      (∀ v ∈ s2.notLearned, v ∈ s.notLearned) ∧ (∀ v ∈ s.learned, v ∈ s2.learned)) := by
  refine ⟨fun s i => rfl, fun s i => rfl, ?_, ?_, ?_, ?_, ?_⟩
  · intro s i hi hwf
    exact ⟨hwf.2.1 _ (getD_mem_of_lt hi), rfl, rfl, rfl⟩
  · intro s i hi hwf
    exact ⟨hwf.1 _ (getD_mem_of_lt hi), rfl, rfl, rfl⟩
  · intro rand ans t k s
    obtain ⟨h1, h2, ⟨xs, hx, hsrc⟩, -, -, -, -, -⟩ := prompt_loop_spec rand ans k t s
    refine ⟨h1, h2, ?_⟩
    intro v hv
    rw [hx] at hv
    rcases List.mem_append.1 hv with hh | hh
    · exact Or.inl hh
    · exact Or.inr (hsrc v hh)
  · intro rand ans t k s
    obtain ⟨h1, h2, ⟨xs, hx, hsrc⟩, -, -, -, -, -⟩ := choice_loop_spec rand ans k t s
    refine ⟨h1, h2, ?_⟩
    intro v hv
    rw [hx] at hv
    rcases List.mem_append.1 hv with hh | hh
    · exact Or.inl hh
    · exact Or.inr (hsrc v hh)
  · intro rand ans s s2 es h
    obtain ⟨f, hfull⟩ := mainStep_some_elim h
    exact mainStepFull_mono hfull

/-- C1 witness: the theorem instantiated on concrete one-item stores. -/
theorem C1_witness :
    (prompt_trial S1 0 true).1.learned =
      S1.learned ++ [{ S1.passChoice.getD 0 default with status := Status.LEARNED }] ∧
    (choice_trial SNL 0 true).1.passChoice =
      SNL.passChoice ++ [{ SNL.notLearned.getD 0 default with status := Status.PASS_CHOICE }] ∧
    (∀ v ∈ S1.learned, v ∈ S1.learned) := by
  refine ⟨(C1_status_forward_only.2.2.1 S1 0 (by decide) (by decide)).2.2.2,
    (C1_status_forward_only.2.2.2.1 SNL 0 (by decide) (by decide)).2.2.2, ?_⟩
  exact (C1_status_forward_only.2.2.2.2.2.2 rand0 ansNo S1 S1
    [Event.round RoundKind.recall, Event.round RoundKind.recall,
      Event.summaryEv (summaryLines [v0, v0, v0, v0, v0, v0, v0, v0, v0, v0]),
      Event.saveEv (save_vocabs S1)] rfl).2

/-- C2: the sum of the three bucket sizes equals the number of loaded rows
and is preserved by every trial, every session loop, every main iteration
and the whole fuel-bounded main loop; every trial either moves one item
between two buckets or changes nothing. -/
theorem C2_bucket_conservation :
    (∀ rows s idx, read_vocab rows = Except.ok (s, idx) → s.total = rows.length) ∧
    (∀ s i c, i < s.passChoice.length → (prompt_trial s i c).1.total = s.total) ∧
    (∀ s i c, i < s.notLearned.length → (choice_trial s i c).1.total = s.total) ∧
    (∀ rand ans t k s, (run_prompt_loop rand ans t k s).1.total = s.total) ∧
    (∀ rand ans t k s, (run_choice_loop rand ans t k s).1.total = s.total) ∧
    (∀ rand ans s s2 es, mainStep s rand ans = some (s2, es) → s2.total = s.total) ∧
    (∀ rand ans fuel s n, ((mainLoop rand ans fuel s n).2).total = s.total) := by
  refine ⟨?_, ?_, ?_, ?_, ?_, ?_, ?_⟩
  · intro rows s idx h
    exact read_vocab_total h
  · intro s i c hi
    exact prompt_trial_total s i c hi
  · intro s i c hi
    exact choice_trial_total s i c hi
  · intro rand ans t k s
    exact (prompt_loop_spec rand ans k t s).2.2.2.1
  · intro rand ans t k s
    exact (choice_loop_spec rand ans k t s).2.2.2.1
  · intro rand ans s s2 es h
    obtain ⟨f, hfull⟩ := mainStep_some_elim h
    exact mainStepFull_total hfull
  · intro rand ans fuel s n
    exact mainLoop_total rand ans fuel s n

/-- C2 witness: the conservation law instantiated on a concrete file and a
concrete trial. -/
theorem C2_witness :
    store1.total = rows1.length ∧ (prompt_trial S1 0 true).1.total = S1.total := by
  exact ⟨C2_bucket_conservation.1 rows1 store1 index1 rfl,
    C2_bucket_conservation.2.1 S1 0 true (by decide)⟩

/-- C4: a round performs at most 5 trials, stops as soon as its source
bucket is empty (an empty source bucket yields an untouched store and no
trials, and a round of fewer than 5 trials ends with an empty source
bucket), and features only items of its source bucket — for a well-formed
store every featured item of a recall round stems from a PASS_CHOICE item
and every featured item of a choice round stems from a NOT_LEARNED item, so
an item with status LEARNED is never selected. -/
theorem C4_round_shape :
    (∀ s rand ans t,
      (run_prompt_session s rand ans t).2.length ≤ 5 ∧
      ((run_prompt_session s rand ans t).2.length < 5 →
        (run_prompt_session s rand ans t).1.passChoice = []) ∧
      (s.passChoice = [] → run_prompt_session s rand ans t = (s, [])) ∧
      (∀ v ∈ (run_prompt_session s rand ans t).2,
        ∃ u ∈ s.passChoice, v = u ∨ v = { u with status := Status.LEARNED }) ∧
      (s.wf → ∀ v ∈ (run_prompt_session s rand ans t).2,
        ∃ u ∈ s.passChoice, u.status = Status.PASS_CHOICE ∧
          (v = u ∨ v = { u with status := Status.LEARNED }))) ∧
    (∀ s rand ans t,
      (run_choice_session s rand ans t).2.length ≤ 5 ∧
      ((run_choice_session s rand ans t).2.length < 5 →
        (run_choice_session s rand ans t).1.notLearned = []) ∧
      (s.notLearned = [] → run_choice_session s rand ans t = (s, [])) ∧
      (∀ v ∈ (run_choice_session s rand ans t).2,
        ∃ u ∈ s.notLearned, v = u ∨ v = { u with status := Status.PASS_CHOICE }) ∧
      (s.wf → ∀ v ∈ (run_choice_session s rand ans t).2,
        ∃ u ∈ s.notLearned, u.status = Status.NOT_LEARNED ∧
          (v = u ∨ v = { u with status := Status.PASS_CHOICE }))) := by
  constructor
  · intro s rand ans t
    obtain ⟨-, -, -, -, -, h6, h7, h8⟩ := prompt_loop_spec rand ans 5 t s
    refine ⟨h6, h7, ?_, h8, ?_⟩
    · intro hpc
      have hempty : s.passChoice.isEmpty = true := by rw [hpc]; rfl
      exact run_prompt_loop_succ_empty hempty rand ans t 4
    · intro hwf v hv
      obtain ⟨u, hu, hveq⟩ := h8 v hv
      exact ⟨u, hu, hwf.2.1 u hu, hveq⟩
  · intro s rand ans t
    obtain ⟨-, -, -, -, -, h6, h7, h8⟩ := choice_loop_spec rand ans 5 t s
    refine ⟨h6, h7, ?_, h8, ?_⟩
    · intro hnl
      have hempty : s.notLearned.isEmpty = true := by rw [hnl]; rfl
      exact run_choice_loop_succ_empty hempty rand ans t 4
    · intro hwf v hv
      obtain ⟨u, hu, hveq⟩ := h8 v hv
      exact ⟨u, hu, hwf.1 u hu, hveq⟩

/-- C4 witness: the round bounds instantiated on concrete stores. -/
theorem C4_witness :
    run_prompt_session emptyStore rand0 ansNo 0 = (emptyStore, []) ∧
    (∀ v ∈ (run_prompt_session S1 rand0 ansNo 0).2,
      ∃ u ∈ S1.passChoice, u.status = Status.PASS_CHOICE ∧
        (v = u ∨ v = { u with status := Status.LEARNED })) := by
  exact ⟨(C4_round_shape.1 emptyStore rand0 ansNo 0).2.2.1 rfl,
    (C4_round_shape.1 S1 rand0 ansNo 0).2.2.2.2 (by decide)⟩

/-- C5: loading a well-formed vocabulary file and saving immediately yields
exactly the original rows (field for field, status codes included),
reordered only into ascending index order. -/
theorem C5_saveLoad_roundtrip : ∀ rows s idx, read_vocab rows = Except.ok (s, idx) →
    (save_vocabs s).Perm rows ∧ List.Sorted rowLE (save_vocabs s) := by
  intro rows s idx h
  obtain ⟨vs, hm, rfl, -⟩ := read_vocab_ok_elim h
  constructor
  · have h1 : (save_vocabs (vs.foldl addVocab emptyStore)).Perm
        ((vs.foldl addVocab emptyStore).flatten.map Vocab.toRaw) :=
      List.perm_insertionSort rowLE _
    have h2 : ((vs.foldl addVocab emptyStore).flatten).Perm vs := by
      have h0 := flatten_foldl_addVocab vs emptyStore
      simpa [emptyStore, Store.flatten] using h0
    have h3 := h2.map Vocab.toRaw
    have h4 : vs.map Vocab.toRaw = rows := (mapM_parseVocab_ok hm).1
    rw [← h4]
    exact h1.trans h3
  · exact List.sorted_insertionSort rowLE _

/-- C5 witness: round-trip on a concrete three-row file. -/
theorem C5_witness :
    read_vocab rows1 = Except.ok (store1, index1) ∧
    ((save_vocabs store1).Perm rows1 ∧ List.Sorted rowLE (save_vocabs store1)) :=
  ⟨rfl, C5_saveLoad_roundtrip rows1 store1 index1 rfl⟩

/-- C3: the top-level loop chooses rounds by exactly the source's policy:
with both buckets empty it terminates; with NOT_LEARNED empty but
PASS_CHOICE non-empty it runs two recall rounds; with NOT_LEARNED non-empty
and at least 10 PASS_CHOICE items (in particular at exactly 10) it runs a
recall round then a choice round; otherwise it runs a choice round followed
by a recall round when PASS_CHOICE has then reached 10 items and by a second
choice round when not. -/
theorem C3_round_policy : ∀ s (rand : Nat → Nat) (ans : Nat → String),
    (s.notLearned = [] → s.passChoice = [] → mainStep s rand ans = none) ∧
    (s.notLearned = [] → s.passChoice ≠ [] →
      ∃ s2 es, mainStep s rand ans = some (s2, es) ∧
        roundsOf es = [RoundKind.recall, RoundKind.recall]) ∧
    (s.notLearned ≠ [] → 10 ≤ s.passChoice.length →
      ∃ s2 es, mainStep s rand ans = some (s2, es) ∧
        roundsOf es = [RoundKind.recall, RoundKind.choice]) ∧
    (s.notLearned ≠ [] → s.passChoice.length < 10 →
      ∃ s2 es, mainStep s rand ans = some (s2, es) ∧
        roundsOf es = [RoundKind.choice,
          if 10 ≤ (run_choice_session s rand ans 0).1.passChoice.length then RoundKind.recall
          else RoundKind.choice]) ∧
    (s.notLearned ≠ [] → s.passChoice.length = 10 →
      ∃ s2 es, mainStep s rand ans = some (s2, es) ∧
        roundsOf es = [RoundKind.recall, RoundKind.choice]) := by
  intro s rand ans
  refine ⟨?_, ?_, ?_, ?_, ?_⟩
  · intro hnl hpc
    have h1 : s.notLearned.isEmpty = true := by rw [hnl]; rfl
    have h2 : s.passChoice.isEmpty = true := by rw [hpc]; rfl
    unfold mainStep
    rw [mainStepFull_done h1 h2]
    rfl
  · intro hnl hpc
    have h1 : s.notLearned.isEmpty = true := by rw [hnl]; rfl
    have h2 : ¬ s.passChoice.isEmpty = true := fun hc => hpc (isEmpty_eq_nil hc)
    unfold mainStep
    rw [mainStepFull_rr h1 h2]
    exact ⟨_, _, rfl, rfl⟩
  · intro hnl h10
    have h1 : ¬ s.notLearned.isEmpty = true := fun hc => hnl (isEmpty_eq_nil hc)
    unfold mainStep
    rw [mainStepFull_rc h1 h10]
    exact ⟨_, _, rfl, rfl⟩
  · intro hnl h10
    have h1 : ¬ s.notLearned.isEmpty = true := fun hc => hnl (isEmpty_eq_nil hc)
    have h3 : ¬ 10 ≤ s.passChoice.length := Nat.not_le.2 h10
    unfold mainStep
    by_cases h4 : 10 ≤ (run_choice_session s rand ans 0).1.passChoice.length
    · rw [mainStepFull_cr h1 h3 h4, if_pos h4]
      exact ⟨_, _, rfl, rfl⟩
    · rw [mainStepFull_cc h1 h3 h4, if_neg h4]
      exact ⟨_, _, rfl, rfl⟩
  · intro hnl h10
    have h1 : ¬ s.notLearned.isEmpty = true := fun hc => hnl (isEmpty_eq_nil hc)
    have h3 : 10 ≤ s.passChoice.length := by rw [h10]
    unfold mainStep
    rw [mainStepFull_rc h1 h3]
    exact ⟨_, _, rfl, rfl⟩

/-- C3 witness: the policy on an empty store and on a store whose
PASS_CHOICE bucket holds exactly 10 items. -/
theorem C3_witness :
    mainStep emptyStore rand0 ansNo = none ∧
    ∃ s2 es, mainStep S10 rand0 ansNo = some (s2, es) ∧
      roundsOf es = [RoundKind.recall, RoundKind.choice] := by
  exact ⟨(C3_round_policy emptyStore rand0 ansNo).1 rfl rfl,
    (C3_round_policy S10 rand0 ansNo).2.2.2.2 (by decide) (by decide)⟩

/-- C9 amended: after each composite iteration the engine first displays
the summary of every item featured in that iteration and then persists the
full final store via save — summary strictly before save, not the other way
round. -/
theorem C9_summary_then_save : ∀ s (rand : Nat → Nat) (ans : Nat → String) s2 f es,
    mainStepFull s rand ans = some (s2, f, es) →
    ∃ k1 k2, es = [Event.round k1, Event.round k2,
      Event.summaryEv (summaryLines f), Event.saveEv (save_vocabs s2)] := by
  intro s rand ans s2 f es h
  by_cases h1 : s.notLearned.isEmpty
  · by_cases h2 : s.passChoice.isEmpty
    · rw [mainStepFull_done h1 h2] at h
      cases h
    · rw [mainStepFull_rr h1 h2] at h
      simp only [Option.some.injEq, Prod.mk.injEq] at h
      obtain ⟨rfl, rfl, rfl⟩ := h
      exact ⟨_, _, rfl⟩
  · by_cases h3 : 10 ≤ s.passChoice.length
    · rw [mainStepFull_rc h1 h3] at h
      simp only [Option.some.injEq, Prod.mk.injEq] at h
      obtain ⟨rfl, rfl, rfl⟩ := h
      exact ⟨_, _, rfl⟩
    · by_cases h4 : 10 ≤ (run_choice_session s rand ans 0).1.passChoice.length
      · rw [mainStepFull_cr h1 h3 h4] at h
        simp only [Option.some.injEq, Prod.mk.injEq] at h
        obtain ⟨rfl, rfl, rfl⟩ := h
        exact ⟨_, _, rfl⟩
      · rw [mainStepFull_cc h1 h3 h4] at h
        simp only [Option.some.injEq, Prod.mk.injEq] at h
        obtain ⟨rfl, rfl, rfl⟩ := h
        exact ⟨_, _, rfl⟩

/-- C9 counterexample: a concrete iteration of the source emits the summary
event strictly before the save event, so the claimed save-then-summary order
is false. -/
theorem C9_counterexample :
    mainStep S1 rand0 ansNo =
      some (S1, [Event.round RoundKind.recall, Event.round RoundKind.recall,
        Event.summaryEv (summaryLines [v0, v0, v0, v0, v0, v0, v0, v0, v0, v0]),
        Event.saveEv (save_vocabs S1)]) ∧
    ¬ saveBeforeSummary [Event.round RoundKind.recall, Event.round RoundKind.recall,
        Event.summaryEv (summaryLines [v0, v0, v0, v0, v0, v0, v0, v0, v0, v0]),
        Event.saveEv (save_vocabs S1)] := by
  constructor
  · rfl
  · unfold saveBeforeSummary
    decide

/-- C9 witness: the amended order on a concrete iteration. -/
theorem C9_witness :
    ∃ k1 k2, [Event.round RoundKind.recall, Event.round RoundKind.recall,
      Event.summaryEv (summaryLines [v0, v0, v0, v0, v0, v0, v0, v0, v0, v0]),
      Event.saveEv (save_vocabs S1)] =
      [Event.round k1, Event.round k2,
        Event.summaryEv (summaryLines [v0, v0, v0, v0, v0, v0, v0, v0, v0, v0]),
        Event.saveEv (save_vocabs S1)] :=
  C9_summary_then_save S1 rand0 ansNo S1 [v0, v0, v0, v0, v0, v0, v0, v0, v0, v0]
    [Event.round RoundKind.recall, Event.round RoundKind.recall,
      Event.summaryEv (summaryLines [v0, v0, v0, v0, v0, v0, v0, v0, v0, v0]),
      Event.saveEv (save_vocabs S1)] rfl

theorem idxLookup_cons (a : Nat) (b : List String) (ps : DistIndex) (k : Nat) :
    idxLookup ((a, b) :: ps) k = if a = k then some b else idxLookup ps k := by
  by_cases h : a = k <;> simp [idxLookup, List.find?_cons, h]

theorem keyNonempty_addMeaning_preserve (m : String) :
    ∀ idx k, keyNonempty idx k → keyNonempty (addMeaning idx m) k := by
  intro idx
  induction idx with
  | nil =>
    intro k h
    obtain ⟨b, hb, -⟩ := h
    simp [idxLookup] at hb
  | cons p ps ih =>
    obtain ⟨a, b⟩ := p
    intro k h
    rw [addMeaning]
    by_cases ha : a = m.length
    · rw [if_pos ha]
      dsimp only
      by_cases hk : a = k
      · exact ⟨b ++ [m], by rw [idxLookup_cons, if_pos hk], by simp⟩
      · obtain ⟨c, hc, hcne⟩ := h
        rw [idxLookup_cons, if_neg hk] at hc
        exact ⟨c, by rw [idxLookup_cons, if_neg hk]; exact hc, hcne⟩
    · rw [if_neg ha]
      by_cases hk : a = k
      · obtain ⟨c, hc, hcne⟩ := h
        rw [idxLookup_cons, if_pos hk] at hc
        cases hc
        exact ⟨b, by rw [idxLookup_cons, if_pos hk], hcne⟩
      · obtain ⟨c, hc, hcne⟩ := h
        rw [idxLookup_cons, if_neg hk] at hc
        obtain ⟨c2, hc2, hc2ne⟩ := ih k ⟨c, hc, hcne⟩
        exact ⟨c2, by rw [idxLookup_cons, if_neg hk]; exact hc2, hc2ne⟩

theorem keyNonempty_addMeaning_self (m : String) :
    ∀ idx, keyNonempty (addMeaning idx m) m.length := by
  intro idx
  induction idx with
  | nil =>
    refine ⟨[m], ?_, by simp⟩
    rw [show addMeaning [] m = [(m.length, [m])] from rfl, idxLookup_cons, if_pos rfl]
  | cons p ps ih =>
    obtain ⟨a, b⟩ := p
    rw [addMeaning]
    by_cases ha : a = m.length
    · rw [if_pos ha]
      dsimp only
      exact ⟨b ++ [m], by rw [idxLookup_cons, if_pos ha], by simp⟩
    · rw [if_neg ha]
      obtain ⟨c, hc, hcne⟩ := ih
      exact ⟨c, by rw [idxLookup_cons, if_neg ha]; exact hc, hcne⟩

theorem buildIndex_keyNonempty (ms : List String) :
    ∀ acc k, (keyNonempty acc k ∨ ∃ m ∈ ms, m.length = k) →
      keyNonempty (ms.foldl addMeaning acc) k := by
  induction ms with
  | nil =>
    intro acc k h
    rcases h with h | ⟨m, hm, -⟩
    · exact h
    · cases hm
  | cons m ms ih =>
    intro acc k h
    simp only [List.foldl_cons]
    apply ih
    rcases h with h | ⟨x, hx, hk⟩
    · exact Or.inl (keyNonempty_addMeaning_preserve m acc k h)
    · rcases List.mem_cons.1 hx with heq | hx2
      · subst heq
        subst hk
        exact Or.inl (keyNonempty_addMeaning_self x acc)
      · exact Or.inr ⟨x, hx2, hk⟩

theorem buildPoolLoop_ok (idx : DistIndex) (maxLen : Nat) (hmax : 0 < maxLen)
    (hall : ∀ k, 1 ≤ k → k ≤ maxLen → keyNonempty idx k) :
    ∀ fuel li pool steps, keyNonempty idx li → 5 - pool.length < fuel →
      ∃ p st, buildPoolLoop idx maxLen fuel li pool steps = PoolResult.ok p st ∧
        5 ≤ p.length ∧ st ≤ steps + (5 - pool.length) := by
  intro fuel
  induction fuel with
  | zero =>
    intro li pool steps hli hfuel
    exact absurd hfuel (by omega)
  | succ fuel ih =>
    intro li pool steps hli hfuel
    rw [buildPoolLoop]
    by_cases hlen : pool.length < 5
    · rw [if_pos hlen]
      obtain ⟨b, hb, hbne⟩ := hli
      rw [hb]
      dsimp only
      have hb1 : 0 < b.length := List.length_pos.2 hbne
      have hli2 : keyNonempty idx (nextLength li maxLen) := by
        apply hall
        · unfold nextLength
          omega
        · unfold nextLength
          have hmod := Nat.mod_lt (li + maxLen - 2) hmax
          omega
      have happ : (pool ++ b).length = pool.length + b.length := List.length_append pool b
      obtain ⟨p, st, heq, hp, hst⟩ :=
        ih (nextLength li maxLen) (pool ++ b) (steps + 1) hli2 (by omega)
      refine ⟨p, st, heq, hp, ?_⟩
      omega
    · rw [if_neg hlen]
      exact ⟨pool, steps, rfl, by omega, by omega⟩

/-- C6 counterexample: on the vocabulary `rows6` (meaning lengths 1 and 3
only) the pool walk for the meaning "abc" looks up the absent length 2 and
fails with a KeyError — it yields no pool at all, so the claimed
termination with a pool of at least 5 entries is false as stated. -/
theorem C6_counterexample :
    read_vocab rows6 = Except.ok (store6, index6) ∧
    buildPool index6 "abc" = PoolResult.keyError 2 ∧
    ¬ ∃ pool steps, buildPool index6 "abc" = PoolResult.ok pool steps := by
  refine ⟨rfl, rfl, ?_⟩
  rintro ⟨pool, steps, h⟩
  rw [show buildPool index6 "abc" = PoolResult.keyError 2 from rfl] at h
  cases h

/-- C6 amended: for an index built at load time and a meaning of the loaded
vocabulary, PROVIDED every length from 1 to the maximum observed meaning
length occurs among the meanings (no gap — otherwise the walk can fail with
a KeyError as the counterexample shows) and the maximum length is positive,
the pool walk terminates with a pool of at least 5 entries in at most 5
bucket-accumulation steps (hence within max(max_length, 5) steps; the
claimed bound max_length alone is too small when the vocabulary holds fewer
than 5 meanings). -/
theorem C6_pool_walk : ∀ rows (s : Store) idx meaning,
    read_vocab rows = Except.ok (s, idx) →
    meaning ∈ rows.map RawVocab.meaning →
    0 < maxKey idx →
    (∀ k, 1 ≤ k → k ≤ maxKey idx → ∃ m ∈ rows.map RawVocab.meaning, m.length = k) →
    ∃ pool steps, buildPool idx meaning = PoolResult.ok pool steps ∧
      5 ≤ pool.length ∧ steps ≤ 5 ∧ steps ≤ Nat.max (maxKey idx) 5 := by
  intro rows s idx meaning hload hm hmax hgap
  obtain ⟨vs, -, -, hidx⟩ := read_vocab_ok_elim hload
  subst hidx
  have hself : keyNonempty (buildIndex (rows.map RawVocab.meaning)) meaning.length :=
    buildIndex_keyNonempty _ [] _ (Or.inr ⟨meaning, hm, rfl⟩)
  have hall : ∀ k, 1 ≤ k → k ≤ maxKey (buildIndex (rows.map RawVocab.meaning)) →
      keyNonempty (buildIndex (rows.map RawVocab.meaning)) k := by
    intro k h1 h2
    obtain ⟨m2, hm2, hk⟩ := hgap k h1 h2
    exact buildIndex_keyNonempty _ [] _ (Or.inr ⟨m2, hm2, hk⟩)
  obtain ⟨p, st, heq, hp, hst⟩ :=
    buildPoolLoop_ok _ _ hmax hall (5 + maxKey (buildIndex (rows.map RawVocab.meaning)))
      meaning.length [] 0 hself (by simp only [List.length_nil]; omega)
  refine ⟨p, st, heq, hp, by omega, ?_⟩
  exact le_trans (by omega)
    (Nat.le_max_right (maxKey (buildIndex (rows.map RawVocab.meaning))) 5)

/-- C6 amended witness: a gap-free six-word vocabulary. -/
theorem C6_witness :
    ∃ pool steps,
      buildPool (buildIndex (rowsFull.map RawVocab.meaning)) "aa" = PoolResult.ok pool steps ∧
      5 ≤ pool.length ∧ steps ≤ 5 ∧
      steps ≤ Nat.max (maxKey (buildIndex (rowsFull.map RawVocab.meaning))) 5 := by
  refine C6_pool_walk rowsFull storeFull _ "aa" rfl (by decide) (by decide) ?_
  intro k h1 h2
  have hmk : maxKey (buildIndex (rowsFull.map RawVocab.meaning)) = 4 := rfl
  rw [hmk] at h2
  interval_cases k
  · exact ⟨"c", by decide, by decide⟩
  · exact ⟨"aa", by decide, by decide⟩
  · exact ⟨"ddd", by decide, by decide⟩
  · exact ⟨"ffff", by decide, by decide⟩

theorem drawK_replicate (draw : Nat → Nat) (t k : Nat) :
    drawK (List.replicate 5 "x") draw t k = List.replicate k "x" := by
  unfold drawK
  have h : ∀ j ∈ List.range k,
      (List.replicate 5 "x").getD (draw (t + j) % (List.replicate 5 "x").length) "" = "x" := by
    intro j _
    have hlt : draw (t + j) % (List.replicate 5 "x").length < (List.replicate 5 "x").length := by
      rw [List.length_replicate]
      exact Nat.mod_lt _ (by omega)
    rw [List.getD_eq_getElem _ _ hlt]
    exact List.getElem_replicate _ hlt
  calc (List.range k).map
        (fun j => (List.replicate 5 "x").getD (draw (t + j) % (List.replicate 5 "x").length) "")
      = (List.range k).map (fun _ => "x") := List.map_congr_left h
    _ = List.replicate k "x" := by
        rw [show (fun _ : Nat => "x") = Function.const Nat "x" from rfl, List.map_const,
          List.length_range]

theorem addDistractors_no_new {choices drawn : List String}
    (h : ∀ d ∈ drawn, d ∈ choices) : addDistractors choices drawn = choices := by
  induction drawn with
  | nil => rfl
  | cons d ds ih =>
    unfold addDistractors
    simp only [List.foldl_cons]
    rw [if_pos (h d (List.mem_cons_self d ds))]
    exact ih (fun x hx => h x (List.mem_cons_of_mem d hx))

/-- C7/code behaviour: on a one-word vocabulary (meaning "x") the pool
`ask_choice` builds is five copies of "x", and from the initial
`choices = [the answer]` the `while len(choices) < 4` sampling loop never
terminates — for every fuel bound and every random stream it is still
running; no `InsufficientDistractorsError` exists anywhere in the source. -/
theorem C7_sampling_diverges :
    buildPool (buildIndex ["x"]) "x" = PoolResult.ok (List.replicate 5 "x") 5 ∧
    ∀ fuel (draw : Nat → Nat) t,
      sampleLoop (List.replicate 5 "x") draw fuel ["x"] t = none := by
  constructor
  · rfl
  · intro fuel
    induction fuel with
    | zero =>
      intro draw t
      rfl
    | succ fuel ih =>
      intro draw t
      rw [sampleLoop, if_pos (by simp)]
      dsimp only
      have hd : addDistractors ["x"]
          (drawK (List.replicate 5 "x") draw t (4 - (["x"] : List String).length)) = ["x"] := by
        rw [drawK_replicate]
        apply addDistractors_no_new
        intro d hd
        rw [List.eq_of_mem_replicate hd]
        simp
      rw [hd]
      exact ih draw _

/-- read_vocab fails exactly when parsing some row fails. -/
theorem read_vocab_err_iff (rows : List RawVocab) :
    isErr (read_vocab rows) = true ↔ isErr (rows.mapM parseVocab) = true := by
  unfold read_vocab
  cases hm : rows.mapM parseVocab <;> simp [Bind.bind, Except.bind, isErr]

/-- C8: a program run fails (with the fatal load error) exactly when the
file cannot be opened or some row's status is not one of the codes 0, 1, 2;
and on such a failure the run's event trace is empty — no round is run, no
summary is shown and no save is performed before the process exits. -/
theorem C8_load_failure : ∀ fuel (rand : Nat → Nat) (ans : Nat → String) input,
    (isErr (mainRun fuel input rand ans).outcome = true ↔
      (input = none ∨ ∃ rows, input = some rows ∧
        ∃ r ∈ rows, ¬ (r.status = 0 ∨ r.status = 1 ∨ r.status = 2))) ∧
    (isErr (mainRun fuel input rand ans).outcome = true →
      (mainRun fuel input rand ans).events = []) := by
  intro fuel rand ans input
  cases input with
  | none =>
    refine ⟨⟨fun _ => Or.inl rfl, fun _ => rfl⟩, fun _ => rfl⟩
  | some rows =>
    cases hm : read_vocab rows with
    | error e =>
      have h1 : isErr (read_vocab rows) = true := by rw [hm]; rfl
      have h3 := (mapM_parseVocab_err_iff rows).1 ((read_vocab_err_iff rows).1 h1)
      constructor
      · constructor
        · intro _
          exact Or.inr ⟨rows, rfl, h3⟩
        · intro _
          simp [mainRun, hm, isErr]
      · intro _
        simp [mainRun, hm]
    | ok x =>
      obtain ⟨s, idx⟩ := x
      have h1 : ¬ isErr (read_vocab rows) = true := by rw [hm]; simp [isErr]
      have h2 : ¬ ∃ r ∈ rows, ¬ (r.status = 0 ∨ r.status = 1 ∨ r.status = 2) := by
        intro hc
        exact h1 ((read_vocab_err_iff rows).2 ((mapM_parseVocab_err_iff rows).2 hc))
      constructor
      · constructor
        · intro hc
          simp [mainRun, hm, isErr] at hc
        · rintro (hnone | ⟨rows2, heq, hbad⟩)
          · cases hnone
          · cases heq
            exact absurd hbad h2
      · intro hc
        simp [mainRun, hm, isErr] at hc

/-- C8 witness: an unreadable file fails and produces no events. -/
theorem C8_witness :
    isErr (mainRun 3 none rand0 ansNo).outcome = true ∧
    (mainRun 3 none rand0 ansNo).events = [] := by
  have h := C8_load_failure 3 rand0 ansNo none
  have h1 : isErr (mainRun 3 none rand0 ansNo).outcome = true := (h.1).2 (Or.inl rfl)
  exact ⟨h1, h.2 h1⟩

/-- C10: saving never mutates the in-memory store. At the reference level
`save_vocabs` works on fresh copies of the item dicts: after a save every
bucket holds exactly the same cell ids in the same order, and every cell
that existed before the save is byte-for-byte unchanged — in particular an
item's status entry still holds the `Status` enum member, not the integer
code (the code mutation hits only the freshly allocated copies). -/
theorem C10_save_frame : ∀ m : Mem,
    (save_vocabs_mem m).2.nl = m.nl ∧
    (save_vocabs_mem m).2.pc = m.pc ∧
    (save_vocabs_mem m).2.ln = m.ln ∧
    (save_vocabs_mem m).2.heap.take m.heap.length = m.heap ∧
    (∀ i, i < m.heap.length →
      (save_vocabs_mem m).2.heap.getD i default = m.heap.getD i default) := by
  intro m
  refine ⟨rfl, rfl, rfl, List.take_left m.heap _, ?_⟩
  intro i hi
  exact List.getD_append m.heap _ default i hi

/-- C10 witness: the frame property on a concrete one-cell memory. -/
theorem C10_witness :
    (save_vocabs_mem mem0).2.heap.getD 0 default = mem0.heap.getD 0 default :=
  (C10_save_frame mem0).2.2.2.2 0 (by decide)

end Quizlet
